import Mathlib

/-
Verification development for the genielibs reply-verification engine:
a shallow embedding of RpcVerify (rpcverify.py) and CiscoConfig
(cliverify.py), with theorems settling the frozen claims about them.

Modelling conventions:
  * Python strings are Lean String; character-level operations (strip,
    split, find, replace) are re-implemented over List Char so that they
    are structurally recursive and evaluate in the kernel.
  * lxml elements are modelled by the mutual inductive XElem / XForest
    below: tag (full lxml tag string), optional text, attribute list,
    namespace map (prefix is Option String because the default namespace
    has key None in lxml), and children.
  * Python float values appearing here are decimal literals from the
    inputs; they are modelled exactly as scaled integers (DecNum).
    Binary-float rounding of long decimals is outside the model scope,
    as are inf/nan and underscore digit separators.
  * In-place mutation of caller lists (list.remove) is modelled by state
    passing: functions return the post-call list.
  * A Python exception escaping a function is modelled by Option: none
    is an uncaught exception, some b a normal return of b.
-/

/-! ## Character and string utilities modelling Python str methods -/

def isSpaceChar (c : Char) : Bool :=
  c = ' ' || c = '\t' || c = '\n' || c = '\r' || c = '\x0b' || c = '\x0c'

/-- Python str.strip over a character list. -/
def pyStripList (cs : List Char) : List Char :=
  ((cs.dropWhile isSpaceChar).reverse.dropWhile isSpaceChar).reverse

/-- Python str.strip. -/
def pyStrip (s : String) : String := ⟨pyStripList s.data⟩

/-- Python str.rstrip. -/
def pyRstrip (s : String) : String := ⟨(s.data.reverse.dropWhile isSpaceChar).reverse⟩

/-- Python str.startswith. -/
def pyStartsWith (s pre : String) : Bool := pre.data.isPrefixOf s.data

/-- Python str.endswith. -/
def pyEndsWith (s suf : String) : Bool := suf.data.reverse.isPrefixOf s.data.reverse

/-- Python str.split() with no argument: split on whitespace runs, dropping
empty tokens.  Accumulator-based, structurally recursive. -/
def wordsAux : List Char → List Char → List (List Char)
  | [], acc => if acc = [] then [] else [acc.reverse]
  | c :: cs, acc =>
    if isSpaceChar c then
      if acc = [] then wordsAux cs [] else acc.reverse :: wordsAux cs []
    else wordsAux cs (c :: acc)

def pySplitWS (s : String) : List String := (wordsAux s.data []).map (⟨·⟩)

/-- Python str.split(sep) for a one-character separator: always returns at
least one part, keeps empty parts. -/
def splitOnCharList (sep : Char) : List Char → List (List Char)
  | [] => [[]]
  | c :: cs =>
    let r := splitOnCharList sep cs
    if c = sep then [] :: r
    else
      match r with
      | h :: t => (c :: h) :: t
      | [] => [[c]]

def pySplitOn (s : String) (sep : Char) : List String :=
  (splitOnCharList sep s.data).map (⟨·⟩)

def countChar (s : String) (c : Char) : Nat := (s.data.filter (· = c)).length

/-- Python list indexing rng[i] for the in-range indexes used by the code
(an out-of-range index would raise in Python; the code only indexes split
results whose length it has just checked). -/
def pyIdx (l : List String) (i : Nat) : String := (l.drop i).headD ""

/-- Index of the first occurrence of pattern pat in l (Python str.find for a
nonempty pattern). -/
def findSubIdx (pat : List Char) : List Char → Option Nat
  | [] => none
  | c :: cs =>
    if pat.isPrefixOf (c :: cs) then some 0
    else (findSubIdx pat cs).map (· + 1)

def containsSub (s pat : String) : Bool := (findSubIdx pat.data s.data).isSome

/-- Python str.replace(old, new) replacing every non-overlapping occurrence
left to right.  Fuel-driven so the recursion is structural; the fuel is the
input length, which bounds the number of steps because every step consumes
at least one character. -/
def replaceAllAux (old new : List Char) : Nat → List Char → List Char
  | 0, l => l
  | _ + 1, [] => []
  | fuel + 1, c :: cs =>
    if old ≠ [] ∧ old.isPrefixOf (c :: cs) then
      new ++ replaceAllAux old new fuel ((c :: cs).drop old.length)
    else c :: replaceAllAux old new fuel cs

def pyReplaceAll (s old new : String) : String :=
  ⟨replaceAllAux old.data new.data s.data.length s.data⟩

/-- Python str.replace(old, new, 1): only the first occurrence. -/
def pyReplaceFirst (s old new : String) : String :=
  match findSubIdx old.data s.data with
  | none => s
  | some i => ⟨s.data.take i ++ new.data ++ s.data.drop (i + old.data.length)⟩

/-- Lexicographic order on character lists by code point (Python string
comparison). -/
def charListLt : List Char → List Char → Bool
  | [], [] => false
  | [], _ :: _ => true
  | _ :: _, [] => false
  | a :: xs, b :: ys => if a = b then charListLt xs ys else decide (a < b)

def pyStrLt (a b : String) : Bool := charListLt a.data b.data

def hasStr (l : List String) (s : String) : Bool := l.any (fun t => t = s)

/-- Python str.isnumeric restricted to ASCII: nonempty and all decimal
digits (other Unicode numeric characters are outside the model scope). -/
def pyIsNumeric (s : String) : Bool := s.data ≠ [] && s.data.all (·.isDigit)

def digitsToNat (cs : List Char) : Nat :=
  cs.foldl (fun n c => n * 10 + (c.toNat - 48)) 0

/-! ## Exact decimal numbers modelling the Python floats used here -/

/-- A decimal number mant / 10 ^ scale.  Comparisons are exact. -/
structure DecNum where
  mant : Int
  scale : Nat
deriving DecidableEq

def decLe (a b : DecNum) : Bool :=
  decide (a.mant * (10 : Int) ^ b.scale ≤ b.mant * (10 : Int) ^ a.scale)

def decLt (a b : DecNum) : Bool :=
  decide (a.mant * (10 : Int) ^ b.scale < b.mant * (10 : Int) ^ a.scale)

def decEqb (a b : DecNum) : Bool :=
  decide (a.mant * (10 : Int) ^ b.scale = b.mant * (10 : Int) ^ a.scale)

/-- Python float(s) on a decimal string: surrounding whitespace stripped,
optional sign, digits with optional fraction part, optional exponent.
inf/nan and underscore separators are outside the model scope. -/
def parseFloat (s : String) : Option DecNum :=
  let cs0 := pyStripList s.data
  let sgnCs : Int × List Char :=
    match cs0 with
    | '+' :: r => (1, r)
    | '-' :: r => (-1, r)
    | r => (1, r)
  let sgn := sgnCs.1
  let cs1 := sgnCs.2
  let ip := cs1.takeWhile Char.isDigit
  let cs2 := cs1.dropWhile Char.isDigit
  let fpCs : List Char × List Char :=
    match cs2 with
    | '.' :: r => (r.takeWhile Char.isDigit, r.dropWhile Char.isDigit)
    | r => ([], r)
  let fp := fpCs.1
  let cs3 := fpCs.2
  if ip = [] ∧ fp = [] then none
  else
    let expPart : Option (Int × List Char) :=
      match cs3 with
      | 'e' :: r =>
        let esCs : Int × List Char :=
          match r with
          | '+' :: rr => (1, rr)
          | '-' :: rr => (-1, rr)
          | rr => (1, rr)
        let ed := esCs.2.takeWhile Char.isDigit
        let rest := esCs.2.dropWhile Char.isDigit
        if ed = [] then none else some (esCs.1 * (digitsToNat ed : Int), rest)
      | 'E' :: r =>
        let esCs : Int × List Char :=
          match r with
          | '+' :: rr => (1, rr)
          | '-' :: rr => (-1, rr)
          | rr => (1, rr)
        let ed := esCs.2.takeWhile Char.isDigit
        let rest := esCs.2.dropWhile Char.isDigit
        if ed = [] then none else some (esCs.1 * (digitsToNat ed : Int), rest)
      | r => some (0, r)
    match expPart with
    | none => none
    | some (ev, rest) =>
      if rest ≠ [] then none
      else
        let m : Int := sgn * ((digitsToNat ip : Int) * (10 : Int) ^ fp.length + (digitsToNat fp : Int))
        if ev ≥ 0 then some ⟨m * (10 : Int) ^ ev.toNat, fp.length⟩
        else some ⟨m, fp.length + (-ev).toNat⟩

/-! ## XML element model (lxml etree elements) -/

mutual
inductive XElem : Type where
  | mk : String → Option String → List (String × String) →
         List (Option String × String) → XForest → XElem
inductive XForest : Type where
  | nil : XForest
  | cons : XElem → XForest → XForest
end

def XElem.tag : XElem → String
  | .mk t _ _ _ _ => t

def XElem.text : XElem → Option String
  | .mk _ tx _ _ _ => tx

def XElem.attrib : XElem → List (String × String)
  | .mk _ _ a _ _ => a

def XElem.nsmap : XElem → List (Option String × String)
  | .mk _ _ _ n _ => n

def XElem.children : XElem → XForest
  | .mk _ _ _ _ c => c

/-- et.QName(tag).localname: the part of an lxml tag after the closing
namespace brace, or the whole tag when there is no namespace part. -/
def localName (t : String) : String :=
  ⟨(splitOnCharList '\x7d' t.data).getLastD []⟩

/-- dict.get(key) on an attribute list. -/
def attribGet (a : List (String × String)) (k : String) : Option String :=
  (a.find? (fun p => p.1 = k)).map (·.2)

/-- key in dict, for an attribute list. -/
def attribHasKey (a : List (String × String)) (k : String) : Bool :=
  a.any (fun p => p.1 = k)

def NETCONF_NAMESPACE : String := "urn:ietf:params:xml:ns:netconf:base:1.0"

/-! ## RpcVerify._process_values -/

/-- The dict returned by RpcVerify._process_values, as a structure: the two
optional value keys, presence of the no_values and match keys, and the two
optional prefix keys. -/
structure ValueState where
  expectVal : Option String
  replyVal : Option String
  noValues : Bool
  isMatch : Bool
  replyPfx : Option String
  expectPfx : Option String
deriving DecidableEq

/-- Element text stripped, when the element exists and the stripped text is
nonempty (the truthiness tests in _process_values). -/
def textValue (e : XElem) : Option String :=
  match e.text with
  | none => none
  | some t => if pyStrip t = "" then none else some (pyStrip t)

/-- RpcVerify._process_values: evaluates reply and expected tag values.
A non-element second argument (the empty string passed by
process_operational_state) is modelled by none. -/
def process_values (reply expect : Option XElem) : ValueState :=
  let ev : Option String :=
    match expect with
    | some e => textValue e
    | none => none
  let rv : Option String :=
    match reply with
    | some e => textValue e
    | none => none
  let base : ValueState := ⟨ev, rv, false, false, none, none⟩
  if rv = none ∧ ev = none then { base with noValues := true }
  else
    match rv, ev with
    | some r, some e =>
      if r ≠ e then
        if countChar r ':' = 1 ∧ countChar e ':' = 1 then
          let rpfx := (pySplitOn r ':').headD ""
          let nsKeys : List (Option String) :=
            match reply with
            | some el => el.nsmap.map (·.1)
            | none => []
          if nsKeys.any (fun k => k = some rpfx) then
            let rv2 := (pySplitOn r ':').getD 1 ""
            let ev2 := (pySplitOn e ':').getD 1 ""
            { base with
              replyVal := some rv2
              expectVal := some ev2
              replyPfx := some rpfx
              expectPfx := some ((pySplitOn e ':').headD "")
              isMatch := rv2 = ev2 }
          else base
        else base
      else { base with isMatch := true }
    | _, _ => { base with isMatch := true }

/-! ## Operational fields (opfields) -/

/-- One operational field dictionary, typed: name, op and value are always
present; xpath, id and selected model optional keys (selected defaults to
true when the key is absent; a missing or non-integer id is id = none,
which makes int(field[...]) raise in verify_reply). -/
structure OpField where
  name : String
  xpath : Option String
  value : String
  op : String
  id : Option Int
  selected : Bool
deriving DecidableEq

/-! ## RpcVerify.check_opfield -/

/-- eval of two Python int literals compared by op.  A literal with a
leading zero (and more than one digit) is a Python 3 syntax error, which
the surrounding except turns into False. -/
def evalNatCmp (a : String) (op : String) (b : String) : Bool :=
  if (a.data.length > 1 ∧ a.data.headD '0' = '0') ∨
     (b.data.length > 1 ∧ b.data.headD '0' = '0') then false
  else
    let x := digitsToNat a.data
    let y := digitsToNat b.data
    match op with
    | "==" => x = y
    | "!=" => x ≠ y
    | ">=" => x ≥ y
    | "<=" => x ≤ y
    | ">" => x > y
    | "<" => x < y
    | _ => false

def evalDecCmp (a : DecNum) (op : String) (b : DecNum) : Bool :=
  match op with
  | "==" => decEqb a b
  | "!=" => !decEqb a b
  | ">=" => decLe b a
  | "<=" => decLe a b
  | ">" => decLt b a
  | "<" => decLt a b
  | _ => false

/-- eval of two quoted Python strings compared by op (values containing a
double quote or backslash, which would break the eval text, are outside the
model scope). -/
def evalStrCmp (a : String) (op : String) (b : String) : Bool :=
  match op with
  | "==" => a = b
  | "!=" => a ≠ b
  | ">=" => !pyStrLt a b
  | "<=" => !pyStrLt b a
  | ">" => pyStrLt b a
  | "<" => pyStrLt a b
  | _ => false

/-- RpcVerify.check_opfield.  Total: the Python body is wrapped in a
try/except that converts every raised error into a logged False.  An op
outside the seven documented operators makes eval fail, hence False. -/
def check_opfield (value : String) (field : OpField) : Bool :=
  if field.op = "range" then
    match parseFloat value with
    | none => false
    | some v =>
      let byComma := pySplitOn field.value ','
      let byWs := pySplitWS field.value
      let bounds : Option (String × String) :=
        if byComma.length = 2 then some (pyIdx byComma 0, pyIdx byComma 1)
        else if byWs.length = 2 then some (pyIdx byWs 0, pyIdx byWs 1)
        else if countChar field.value '-' = 1 then
          some (pyIdx (pySplitOn field.value '-') 0, pyIdx (pySplitOn field.value '-') 1)
        else none
      match bounds with
      | none => false
      | some (s1, s2) =>
        match parseFloat s1, parseFloat s2 with
        | some r1, some r2 => decLe r1 v && decLe v r2
        | _, _ => false
  else
    if (pyIsNumeric value ∧ ¬ pyIsNumeric field.value) ∨
       (pyIsNumeric field.value ∧ ¬ pyIsNumeric value) then false
    else if pyIsNumeric value then evalNatCmp value field.op field.value
    else
      match parseFloat value, parseFloat field.value with
      | some v1, some v2 => evalDecCmp v1 field.op v2
      | _, _ => evalStrCmp value field.op field.value

/-! ## RpcVerify.process_expect_reply -/

/-- The inner loop of process_expect_reply for one reply element: scan the
unexpected list for a structural match and decide the result flag.  In
explicit and report-all modes a violation breaks out of the scan; without
either mode the scan continues after recording the violation. -/
def scanUnexpected (wd : List String) (reply : XElem) (xpath : String) :
    List (XElem × String) → Bool → Bool
  | [], result => result
  | (unexpect, ux) :: rest, result =>
    if reply.tag = unexpect.tag ∧ xpath = ux then
      let vs := process_values (some reply) (some unexpect)
      if hasStr wd "explicit" then false
      else if hasStr wd "report-all" then
        if ¬ vs.isMatch then scanUnexpected wd reply xpath rest result
        else false
      else if vs.isMatch ∨ vs.noValues then scanUnexpected wd reply xpath rest false
      else scanUnexpected wd reply xpath rest result
    else scanUnexpected wd reply xpath rest result

/-- RpcVerify.process_expect_reply: partition the expected elements on the
expected="false" attribute, then check every reply element against the
unexpected set.  Returns (result, remaining expected, response). -/
def process_expect_reply (wd : List String)
    (response expected : List (XElem × String)) :
    Bool × List (XElem × String) × List (XElem × String) :=
  let unexpected := expected.filter (fun p => attribGet p.1.attrib "expected" = some "false")
  let expect := expected.filter (fun p => ¬ attribGet p.1.attrib "expected" = some "false")
  let result := response.foldl
    (fun res (p : XElem × String) => scanUnexpected wd p.1 p.2 unexpected res) true
  (result, expect, response)

/-! ## RpcVerify.verify_reply -/

/-- First reply element matching the expected tag and xpath, with its
position (Python finds the element and later list.remove removes that very
object; the index models identity-based removal). -/
def findReply (tag xpath : String) : List (XElem × String) → Option (Nat × XElem × String)
  | [] => none
  | (r, rx) :: rest =>
    if r.tag = tag ∧ xpath = rx then some (0, r, rx)
    else (findReply tag xpath rest).map (fun q => (q.1 + 1, q.2))

/-- The opfields scan inside verify_reply.  Python iterates the list by
index while removing from it; the index i and List.erase reproduce that,
and the fuel (called with length + 1) only bounds the loop, which advances
i every step.  Returns none when int(field[...]) raises on a field with no
integer id, some (flag, remaining fields) otherwise; flag is the
check_opfield result on a break, true when the loop ends without a break. -/
def scanVR (localname rx value : String) (seq : Int) :
    Nat → Nat → List OpField → Option (Bool × List OpField)
  | 0, _, flds => some (true, flds)
  | fuel + 1, i, flds =>
    match flds.get? i with
    | none => some (true, flds)
    | some field =>
      if field.selected = false then
        scanVR localname rx value seq fuel (i + 1) (flds.erase field)
      else if field.xpath = some rx ∧ field.name = localname then
        some (check_opfield value field, flds.erase field)
      else
        match field.id with
        | none => none
        | some fid =>
          if seq = fid then some (check_opfield value field, flds.erase field)
          else scanVR localname rx value seq fuel (i + 1) flds

/-- The main loop of verify_reply over the expected list, threading result,
the accumulated namespace set, the response list, the opfields list and the
value sequence number.  At the end, leftover response elements under the
explicit with-defaults mode force the result to False. -/
def verifyAux (wd : List String) :
    List (XElem × String) → Bool → List String → List (XElem × String) →
    List OpField → Int → Option (Bool × List (XElem × String) × List OpField)
  | [], result, _, response, opfields, _ =>
    let result := if !response.isEmpty && hasStr wd "explicit" then false else result
    some (result, response, opfields)
  | (expect, xpath) :: restExp, result, nsSet, response, opfields, seq =>
    match findReply expect.tag xpath response with
    | none => verifyAux wd restExp false nsSet response opfields seq
    | some (i, reply, replyXpath) =>
      let nsSet := nsSet ++ expect.nsmap.map (·.2)
      let nsOk := (reply.nsmap.map (·.2)).all
        (fun ns => ns = NETCONF_NAMESPACE || hasStr nsSet ns)
      let result := result && nsOk
      let vs := process_values (some reply) (some expect)
      if vs.noValues then
        verifyAux wd restExp result nsSet (response.eraseIdx i) opfields seq
      else if opfields ≠ [] ∧ vs.replyVal.isSome then
        match scanVR (localName reply.tag) replyXpath (vs.replyVal.getD "") seq
            (opfields.length + 1) 0 opfields with
        | none => none
        | some (ok, opfields2) =>
          verifyAux wd restExp (result && ok) nsSet (response.eraseIdx i) opfields2 (seq + 1)
      else
        let result := if ¬ vs.isMatch then false else result
        verifyAux wd restExp result nsSet (response.eraseIdx i) opfields seq

/-- RpcVerify.verify_reply.  none models an uncaught exception (a field with
no integer id reached by the sequence-number fallback); some returns the
result together with the post-call response and opfields lists (the Python
code mutates both in place). -/
def verify_reply (wd : List String) (response expected : List (XElem × String))
    (opfields : List OpField) : Option (Bool × List (XElem × String) × List OpField) :=
  verifyAux wd expected true [] response opfields 0

/-! ## RpcVerify.process_operational_state -/

/-- The opfields scan inside process_operational_state, with the same
index-while-removing iteration as scanVR but no sequence-number fallback
and therefore no exception path. -/
def scanPO (localname rx value : String) :
    Nat → Nat → List OpField → Bool × List OpField
  | 0, _, flds => (true, flds)
  | fuel + 1, i, flds =>
    match flds.get? i with
    | none => (true, flds)
    | some field =>
      if field.selected = false then
        scanPO localname rx value fuel (i + 1) (flds.erase field)
      else if field.xpath = some rx ∧ localname = field.name then
        (check_opfield value field, flds.erase field)
      else scanPO localname rx value fuel (i + 1) flds

/-- One reply element of the process_operational_state walk: compute the
reply value (the string empty when the tag has none) and scan the pending
opfields. -/
def poStep (st : Bool × List OpField) (p : XElem × String) : Bool × List OpField :=
  let vs := process_values (some p.1) none
  let value := vs.replyVal.getD "empty"
  let r := scanPO (localName p.1.tag) p.2 value (st.2.length + 1) 0 st.2
  (st.1 && r.1, r.2)

/-- RpcVerify.process_operational_state.  Returns the result and the
post-call opfields list (the caller passes a list that is mutated in
place).  Any leftover fields after the walk force the result to False,
whatever their selected flag; only the logged message skips unselected
fields. -/
def process_operational_state (response : List (XElem × String))
    (opfields : List OpField) : Bool × List OpField :=
  if opfields = [] then (false, [])
  else
    let st := response.foldl poStep (true, opfields)
    if st.2 ≠ [] then (false, st.2) else st

/-! ## RpcVerify.process_rpc_reply and the expected-side flattening -/

/-- The xpath post-processing on the reply side:
xpath.replace("/rpc-reply/data", "") replaces every occurrence. -/
def replyXpathTf (p : String) : String := pyReplaceAll p "/rpc-reply/data" ""

/-- The xpath post-processing on the expected side:
re.sub(r"^/rpc-reply/data|^/data", "", xpath) strips one leading
occurrence, trying the first alternative first. -/
def expectXpathTf (p : String) : String :=
  if pyStartsWith p "/rpc-reply/data" then ⟨p.data.drop ("/rpc-reply/data".data.length)⟩
  else if pyStartsWith p "/data" then ⟨p.data.drop ("/data".data.length)⟩
  else p

mutual
/-- Document-order walk of el.iter() building (element, xpath) pairs: every
element whose local name is rpc-reply is skipped, and an element named data
is skipped while no element has been emitted yet; the xpath is the full
slash-joined local-name chain from the tree root, post-processed by tf. -/
def collectElem (tf : String → String) (acc : List (XElem × String))
    (path : String) : XElem → List (XElem × String)
  | .mk t tx a n cs =>
    let p := path ++ "/" ++ localName t
    let acc2 :=
      if localName t = "rpc-reply" then acc
      else if acc.isEmpty && (localName t == "data") then acc
      else acc ++ [(XElem.mk t tx a n cs, tf p)]
    collectForest tf acc2 p cs
def collectForest (tf : String → String) (acc : List (XElem × String))
    (path : String) : XForest → List (XElem × String)
  | .nil => acc
  | .cons e rest => collectForest tf (collectElem tf acc path e) path rest
end

def flattenReply (root : XElem) : List (XElem × String) :=
  collectElem replyXpathTf [] "" root

def flattenExpect (root : XElem) : List (XElem × String) :=
  collectElem expectXpathTf [] "" root

/-- RpcVerify.process_rpc_reply on a parsed tree.  The input Option models
the raw string: none is an empty or unusable response string.  The result
none models the False return (no response, or the root element is not an
rpc-reply); malformed-XML strings, which also return False, are outside the
tree-level model. -/
def process_rpc_reply (resp : Option XElem) : Option (List (XElem × String)) :=
  match resp with
  | none => none
  | some root =>
    if localName root.tag = "rpc-reply" then some (flattenReply root) else none

/-! ## RpcVerify.parse_rpc_expected -/

/-- The two explicit-mode checks on the flattened expected list: a list of
fewer than two elements collapses to empty, and so does a list whose second
element (the first child of the top container) carries the expected
attribute; both checks run only when the explicit with-defaults mode is
active. -/
def preprocess_expected (wd : List String)
    (expected0 : List (XElem × String)) : List (XElem × String) :=
  let expected1 :=
    if hasStr wd "explicit" && decide (expected0.length < 2) then [] else expected0
  if !expected1.isEmpty && hasStr wd "explicit" then
    match expected1.get? 1 with
    | some (topChild, _) =>
      if attribHasKey topChild.attrib "expected" then [] else expected1
    | none => expected1
  else expected1

/-- The tail of parse_rpc_expected after the expected list is final: the
empty-data edge cases, then process_expect_reply, then verify_reply when
the absence check succeeded and both lists are nonempty. -/
def parse_rpc_core (wd : List String) (response expected2 : List (XElem × String))
    (opfields : List OpField) : Option Bool :=
  if (!expected2.isEmpty || !(opfields = [])) && response.isEmpty then some false
  else if expected2.isEmpty && opfields = [] && response.isEmpty then some true
  else if expected2.isEmpty && opfields = [] && !response.isEmpty then some false
  else
    let per := process_expect_reply wd response expected2
    if per.1 && !per.2.1.isEmpty && !per.2.2.isEmpty then
      (verify_reply wd per.2.2 per.2.1 opfields).map (·.1)
    else some per.1

/-- RpcVerify.parse_rpc_expected on parsed trees.  respX / expectX are the
parsed reply and expected documents (none models an empty input string; the
expected tree is the parse of the minus-preprocessed text, so elements the
user prefixed with a minus carry the attribute expected="false").  Returns
none when verify_reply raises, some result otherwise. -/
def parse_rpc_expected (wd : List String) (respX expectX : Option XElem)
    (opfields : List OpField) : Option Bool :=
  if opfields = [] && expectX.isNone then some false
  else if respX.isNone then some false
  else
    match expectX with
    | none => some false
    | some ex =>
      match process_rpc_reply respX with
      | none => some false
      | some response =>
        parse_rpc_core wd response (preprocess_expected wd (flattenExpect ex)) opfields

/-! ## CiscoConfig (cliverify.py) -/

/-- Python str.splitlines restricted to newline separators (the CLI texts in
scope use only the \n separator): chunks between newline characters, with
the empty string giving no lines and a trailing newline giving no final
empty line. -/
def splitLinesList : List Char → List (List Char)
  | [] => []
  | c :: cs =>
    if c = '\n' then [] :: splitLinesList cs
    else
      match splitLinesList cs with
      | [] => [[c]]
      | l :: ls => (c :: l) :: ls

def splitLines (s : String) : List String := (splitLinesList s.data).map (⟨·⟩)

/-- Joining normalized lines back into one text with newline separators. -/
def joinLinesList : List (List Char) → List Char
  | [] => []
  | [l] => l
  | l :: ls => l ++ '\n' :: joinLinesList ls

def joinLines (ls : List String) : String := ⟨joinLinesList (ls.map String.data)⟩

def ciscoSkip : List String :=
  ["enable", "config", "t", "configure", "end", "show",
   "terminal", "commit", "#", "!", "<rpc", "Building"]

def ciscoTimestamps : List String :=
  ["mon", "tue", "wed", "thu", "fri", "sat", "sun", "jan",
   "feb", "mar", "apr", "may", "jun", "jul", "aug", "sep",
   "oct", "nov", "dec"]

/-- Minute part [0-5]?[0-9] of the time regex followed by the rest of the
pattern, which is optional: with backtracking this succeeds exactly when
the next character is a digit. -/
def minuteMatch : List Char → Bool
  | [] => false
  | c :: _ => c.isDigit

/-- Prefix match of the timeregex
(([0-1]?[0-9])|([2][0-3])):([0-5]?[0-9])(:([0-5]?[0-9]))? against a token,
with the regex backtracking resolved by hand: a one or two digit hour
followed by a colon and a minute starting with a digit. -/
def timeMatch : List Char → Bool
  | [] => false
  | [_] => false
  | c1 :: c2 :: rest =>
    if (c1 = '0' ∨ c1 = '1') ∧ c2.isDigit then
      (match rest with
       | ':' :: r => minuteMatch r
       | _ => false) ||
      (c2 = ':' && minuteMatch rest)
    else if c1.isDigit ∧ c2 = ':' then minuteMatch rest
    else if c1 = '2' ∧ ('0' ≤ c2 ∧ c2 ≤ '3') then
      match rest with
      | ':' :: r => minuteMatch r
      | _ => false
    else false

/-- CiscoConfig._check_timestamps: the first three characters, lowercased,
are a weekday or month abbreviation and some whitespace token matches the
time regex. -/
def check_timestamps (line : String) : Bool :=
  hasStr ciscoTimestamps ⟨(line.data.take 3).map Char.toLower⟩ &&
  (pySplitWS line).any (fun tok => timeMatch tok.data)

/-- CiscoConfig._handle_intf: split the line, remove the token interface,
rejoin with no separators after the interface keyword. -/
def handle_intf (line : String) : String :=
  "interface " ++ String.join ((pySplitWS line).erase "interface")

/-- CiscoConfig._handle_username: drop the explicit 0 encoding tag after
password, first occurrence only. -/
def handle_username (line : String) : String :=
  pyReplaceFirst line "password 0" "password"

/-- CiscoConfig._handle_exit: a bare exit line is dropped. -/
def handle_exit (line : String) : Option String :=
  if (pySplitWS line).length = 1 then none else some line

def firstToken (line : String) : String := (pySplitWS line).headD ""

/-- CiscoConfig._check_special_handles dispatched on the first token. -/
def check_special_handles (line : String) : Option String :=
  if firstToken line = "interface" then some (handle_intf line)
  else if firstToken line = "username" then some (handle_username line)
  else if firstToken line = "exit" then handle_exit line
  else some line

/-- One iteration of the CiscoConfig.normalize loop: none when the line is
dropped, some cleaned line otherwise. -/
def processLine (line : String) : Option String :=
  if pyStrip line = "" then none
  else
    let afterMore : Option String :=
      if containsSub line "--More--" then
        let l2 : String :=
          match findSubIdx "--More--".data line.data with
          | some i => ⟨line.data.drop (i + 8)⟩
          | none => line
        if pySplitWS l2 = [] then none else some l2
      else some line
    match afterMore with
    | none => none
    | some line =>
      if pyStartsWith line "#" then none
      else if pyStartsWith line "!" then none
      else if pyStartsWith line "Current configuration" then none
      else if pyEndsWith (pyRstrip line) "#" then none
      else if hasStr ciscoSkip (firstToken line) then none
      else if check_timestamps line then none
      else
        match check_special_handles line with
        | none => none
        | some line => some (pyStrip line)

/-- CiscoConfig.normalize. -/
def CiscoConfig.normalize (cfg : String) : List String :=
  (splitLines cfg).filterMap processLine

/-- Modelled from the spec: the DeepDiff library (an external dependency,
not part of this repository) compares two lists with ignore_order and
report_repetition.  For duplicate-free line lists, the spec reduces this to
value differences: iterable_item_added holds the lines present in the
second list and absent from the first, iterable_item_removed the converse,
and repetition_change is empty.  That model is what the two functions below
provide; lists with repeated lines are outside its scope. -/
def deepDiffAdded (cli_base cli_after : List String) : List String :=
  cli_after.filter (fun l => !hasStr cli_base l)

def deepDiffRemoved (cli_base cli_after : List String) : List String :=
  cli_base.filter (fun l => !hasStr cli_after l)

/-- CiscoConfig.diffs on duplicate-free normalized line lists: added lines
carry no prefix, removed lines a minus prefix, each with a trailing
newline; the repetition branch contributes nothing for duplicate-free
lists. -/
def CiscoConfig.diffs (cli_base cli_after : List String) : List String × List String :=
  ((deepDiffAdded cli_base cli_after).map (fun l => l ++ "\n"),
   (deepDiffRemoved cli_base cli_after).map (fun l => "-" ++ l ++ "\n"))

/-! ## Concrete inputs used by counterexamples and witnesses -/

/-- A leaf element with no namespace map and no children. -/
def xleaf (t : String) (v : Option String) (a : List (String × String)) : XElem :=
  XElem.mk t v a [] .nil

/-- One-child and two-level container builders. -/
def xnode1 (t : String) (c : XElem) : XElem := XElem.mk t none [] [] (.cons c .nil)

/-- The reply rpc-reply over data over sys over name = foo from the spec
section 8 example. -/
def exReplyFoo : XElem :=
  xnode1 "rpc-reply" (xnode1 "data" (xnode1 "sys" (xleaf "name" (some "foo") [])))

/-- An empty reply: rpc-reply with no payload. -/
def exReplyEmpty : XElem := XElem.mk "rpc-reply" none [] [] .nil

/-- An expected document that is a bare data container. -/
def exExpectData : XElem := XElem.mk "data" none [] [] .nil

/-- A reply whose only payload element is top with text v. -/
def exReplyTopV : XElem := xnode1 "rpc-reply" (xleaf "top" (some "v") [])

/-- A well-formed reply whose payload element carries a literal
expected="false" attribute. -/
def exReplyAttr : XElem :=
  xnode1 "rpc-reply" (xleaf "top" (some "v") [("expected", "false")])

/-- An expected document whose second element (first child of the outer
payload container) is marked expected="false". -/
def exExpectMarked : XElem :=
  xnode1 "top" (xleaf "item" none [("expected", "false")])

/-- An opfield whose xpath matches nothing in the replies used here and
whose id key is missing. -/
def exFieldNoId : OpField := ⟨"x", some "/zzz", "v", "==", none, true⟩

/-- A deselected opfield. -/
def exFieldUnsel : OpField := ⟨"state", some "/sys/state", "up", "==", some 0, false⟩

/-! ## Claim C1 -/

/-- Claim C1: in the absence check of process_expect_reply, for a reply
element structurally matching (same tag, same xpath) an expectation element
marked expected="false", the result is a violation (False) exactly when:
the explicit with-defaults mode holds; or, without explicit, the report-all
mode holds and the value state carries the match key; or, with neither
mode, the value state carries the match key or the no_values key. -/
theorem C1_absence_mode_rule (wd : List String) (r u : XElem) (x : String)
    (htag : r.tag = u.tag)
    (hattr : attribGet u.attrib "expected" = some "false") :
    (process_expect_reply wd [(r, x)] [(u, x)]).1 = false ↔
      (hasStr wd "explicit" = true ∨
       (hasStr wd "explicit" = false ∧ hasStr wd "report-all" = true ∧
        (process_values (some r) (some u)).isMatch = true) ∨
       (hasStr wd "explicit" = false ∧ hasStr wd "report-all" = false ∧
        ((process_values (some r) (some u)).isMatch = true ∨
         (process_values (some r) (some u)).noValues = true))) := by
  simp only [process_expect_reply, List.filter_cons, List.filter_nil, hattr,
    List.foldl_cons, List.foldl_nil]
  norm_num
  simp only [scanUnexpected, htag, true_and, if_pos rfl]
  by_cases hex : hasStr wd "explicit" = true
  · simp [hex]
  · simp only [Bool.not_eq_true] at hex
    by_cases hra : hasStr wd "report-all" = true
    · by_cases hm : (process_values (some r) (some u)).isMatch = true
      · simp [hex, hra, hm, scanUnexpected]
      · simp only [Bool.not_eq_true] at hm
        simp [hex, hra, hm, scanUnexpected]
    · simp only [Bool.not_eq_true] at hra
      by_cases hm : (process_values (some r) (some u)).isMatch = true
      · simp [hex, hra, hm, scanUnexpected]
      · simp only [Bool.not_eq_true] at hm
        by_cases hn : (process_values (some r) (some u)).noValues = true
        · simp [hex, hra, hm, hn, scanUnexpected]
        · simp only [Bool.not_eq_true] at hn
          simp [hex, hra, hm, hn, scanUnexpected]

/-- Witness for C1 at a concrete input: with no with-defaults capability, a
matching tag with agreeing values is a violation. -/
theorem C1_witness :
    (process_expect_reply [] [(xleaf "a" (some "5") [], "/a")]
      [(xleaf "a" (some "5") [("expected", "false")], "/a")]).1 = false := by
  exact (C1_absence_mode_rule [] (xleaf "a" (some "5") [])
    (xleaf "a" (some "5") [("expected", "false")]) "/a" rfl (by decide)).mpr
    (by right; right; refine ⟨by decide, by decide, Or.inl (by decide)⟩)

/-! ## Claim C6 -/

/-- Counterexample to claim C6: a single opfield with selected false and an
empty response.  The field is never encountered by the walk, so it is not
discarded; the leftover check then makes the overall result False, so a
selected-false field does cause the result to be False on its own. -/
theorem C6_counterexample :
    process_operational_state [] [exFieldUnsel] = (false, [exFieldUnsel]) := by
  decide

/-- Claim C6 as amended: a field with selected false that is encountered
during the walk over reply elements is removed from the list without being
evaluated and without affecting the result (the outcome is True no matter
what operator and value the field carries); but a field the walk never
reaches, as with an empty response, stays in the list and forces the
result to False through the leftover check even when its selected flag is
false. -/
theorem C6_amended (r : XElem) (x : String) (f : OpField)
    (hsel : f.selected = false) :
    process_operational_state [(r, x)] [f] = (true, []) := by
  have hne : ¬([f] = ([] : List OpField)) := by simp
  simp only [process_operational_state, if_neg hne, List.foldl_cons, List.foldl_nil]
  simp only [poStep, List.length_cons, List.length_nil, scanPO, List.get?, hsel,
    if_pos rfl]
  have herase : ([f].erase f) = ([] : List OpField) := by
    simp [List.erase_cons_head]
  rw [herase]
  simp [scanPO]

/-- Witness for C6 as amended, at a concrete deselected field and a
concrete reply element. -/
theorem C6_witness :
    process_operational_state [(xleaf "state" (some "down") [], "/sys/state")]
      [exFieldUnsel] = (true, []) :=
  C6_amended (xleaf "state" (some "down") []) "/sys/state" exFieldUnsel rfl

/-! ## Claim C9 -/

/-- Claim C9: for duplicate-free line lists, diffs is antisymmetric: the
removed list of diffs with swapped arguments is the added list with the
minus prefix put back (equivalently, the added list of one call equals the
removed list of the swapped call with the leading minus stripped), in both
directions; and the self diff is empty. -/
theorem C9_diffs_antisymmetric (base after : List String)
    (hb : base.Nodup) (ha : after.Nodup) :
    (CiscoConfig.diffs after base).2 =
      (CiscoConfig.diffs base after).1.map (fun l => "-" ++ l) ∧
    (CiscoConfig.diffs base after).2 =
      (CiscoConfig.diffs after base).1.map (fun l => "-" ++ l) ∧
    CiscoConfig.diffs base base = ([], []) := by
  refine ⟨?_, ?_, ?_⟩
  · simp only [CiscoConfig.diffs, deepDiffAdded, deepDiffRemoved, List.map_map]
    exact List.map_congr_left (fun l _ => (String.append_assoc "-" l "\n").symm)
  · simp only [CiscoConfig.diffs, deepDiffAdded, deepDiffRemoved, List.map_map]
    exact List.map_congr_left (fun l _ => (String.append_assoc "-" l "\n").symm)
  · have hf : base.filter (fun l => !hasStr base l) = [] := by
      apply List.filter_eq_nil_iff.mpr
      intro a hmem
      simp [hasStr, List.any_eq_true]
      exact hmem
    simp [CiscoConfig.diffs, deepDiffAdded, deepDiffRemoved, hf]

/-- Witness for C9 at concrete duplicate-free lists. -/
theorem C9_witness :
    (CiscoConfig.diffs ["b", "c"] ["a", "b"]).2 =
      (CiscoConfig.diffs ["a", "b"] ["b", "c"]).1.map (fun l => "-" ++ l) :=
  (C9_diffs_antisymmetric ["a", "b"] ["b", "c"] (by decide) (by decide)).1

/-! ## Claim C7 -/

/-- Modelled from the spec wording of claim C7: the field value string
splits into two floats, the accepted separators tried in the order the
spec lists them (comma, whitespace, a single hyphen), and the reply value
parses to a float lying within the inclusive interval between the two
bounds; everything else is a failure. -/
def range_claim_holds (value fieldValue : String) : Bool :=
  let bounds : Option (DecNum × DecNum) :=
    if (pySplitOn fieldValue ',').length = 2 then
      match parseFloat (pyIdx (pySplitOn fieldValue ',') 0),
            parseFloat (pyIdx (pySplitOn fieldValue ',') 1) with
      | some a, some b => some (a, b)
      | _, _ => none
    else if (pySplitWS fieldValue).length = 2 then
      match parseFloat (pyIdx (pySplitWS fieldValue) 0),
            parseFloat (pyIdx (pySplitWS fieldValue) 1) with
      | some a, some b => some (a, b)
      | _, _ => none
    else if countChar fieldValue '-' = 1 then
      match parseFloat (pyIdx (pySplitOn fieldValue '-') 0),
            parseFloat (pyIdx (pySplitOn fieldValue '-') 1) with
      | some a, some b => some (a, b)
      | _, _ => none
    else none
  match bounds, parseFloat value with
  | some (lo, hi), some v => decLe lo v && decLe v hi
  | _, _ => false

/-- Claim C7: check_opfield on a range field returns True exactly when the
spec-side range condition holds: the field value splits into two float
bounds and the reply value is a float inside the inclusive interval; any
parse failure of the reply value or of the bounds gives False (and the
function is total, so no exception escapes). -/
theorem C7_range_rule (value : String) (field : OpField)
    (hop : field.op = "range") :
    check_opfield value field = true ↔
      range_claim_holds value field.value = true := by
  cases hv : parseFloat value with
  | none => simp [check_opfield, range_claim_holds, hop, hv]
  | some v =>
    by_cases h1 : (pySplitOn field.value ',').length = 2
    · cases ha : parseFloat (pyIdx (pySplitOn field.value ',') 0) with
      | none => simp [check_opfield, range_claim_holds, hop, hv, h1, ha]
      | some a =>
        cases hb : parseFloat (pyIdx (pySplitOn field.value ',') 1) with
        | none => simp [check_opfield, range_claim_holds, hop, hv, h1, ha, hb]
        | some b => simp [check_opfield, range_claim_holds, hop, hv, h1, ha, hb]
    · by_cases h2 : (pySplitWS field.value).length = 2
      · cases ha : parseFloat (pyIdx (pySplitWS field.value) 0) with
        | none => simp [check_opfield, range_claim_holds, hop, hv, h1, h2, ha]
        | some a =>
          cases hb : parseFloat (pyIdx (pySplitWS field.value) 1) with
          | none => simp [check_opfield, range_claim_holds, hop, hv, h1, h2, ha, hb]
          | some b => simp [check_opfield, range_claim_holds, hop, hv, h1, h2, ha, hb]
      · by_cases h3 : countChar field.value '-' = 1
        · cases ha : parseFloat (pyIdx (pySplitOn field.value '-') 0) with
          | none => simp [check_opfield, range_claim_holds, hop, hv, h1, h2, h3, ha]
          | some a =>
            cases hb : parseFloat (pyIdx (pySplitOn field.value '-') 1) with
            | none =>
              simp [check_opfield, range_claim_holds, hop, hv, h1, h2, h3, ha, hb]
            | some b =>
              simp [check_opfield, range_claim_holds, hop, hv, h1, h2, h3, ha, hb]
        · simp [check_opfield, range_claim_holds, hop, hv, h1, h2, h3]

/-- Witness for C7 at the two concrete examples from the claim. -/
theorem C7_witness :
    check_opfield "7" ⟨"n", none, "1-10", "range", some 0, true⟩ = true ∧
    check_opfield "15" ⟨"n", none, "1,10", "range", some 0, true⟩ = false := by
  constructor
  · exact (C7_range_rule "7" ⟨"n", none, "1-10", "range", some 0, true⟩ rfl).mpr
      (by decide)
  · decide

/-! ## Claim C5 -/

/-- The explicit-mode preprocessing leaves an empty expected list empty. -/
theorem preprocess_expected_nil (wd : List String) :
    preprocess_expected wd [] = [] := by
  simp [preprocess_expected]

/-- With the expected list and opfields both empty, the core returns True
exactly on an empty response. -/
theorem parse_rpc_core_nil_nil (wd : List String)
    (resp : List (XElem × String)) :
    parse_rpc_core wd resp [] [] = some resp.isEmpty := by
  cases hr : resp.isEmpty <;> simp [parse_rpc_core, hr]

/-- Claim C5: with no opfields, parse_rpc_expected returns True when both
the expected document and the actual reply carry no payload elements (the
"expected no data" success), and False when the expected document and
opfields are empty but the reply has payload elements. -/
theorem C5_empty_payload (wd : List String) (R E : XElem)
    (hroot : localName R.tag = "rpc-reply")
    (hE : flattenExpect E = []) :
    (flattenReply R = [] → parse_rpc_expected wd (some R) (some E) [] = some true) ∧
    (flattenReply R ≠ [] → parse_rpc_expected wd (some R) (some E) [] = some false) := by
  constructor
  · intro hR
    simp [parse_rpc_expected, process_rpc_reply, hroot, hE, hR,
      preprocess_expected_nil, parse_rpc_core_nil_nil]
  · intro hR
    simp [parse_rpc_expected, process_rpc_reply, hroot, hE, hR,
      preprocess_expected_nil, parse_rpc_core_nil_nil]

/-- Witness for C5: an empty rpc-reply against a bare data container is a
success, and a reply with payload against the same expectation fails. -/
theorem C5_witness :
    parse_rpc_expected [] (some exReplyEmpty) (some exExpectData) [] = some true ∧
    parse_rpc_expected [] (some exReplyTopV) (some exExpectData) [] = some false := by
  have hne : flattenReply exReplyTopV ≠ [] := by
    intro h
    have hlen := congrArg List.length h
    rw [show flattenReply exReplyTopV =
      [(xleaf "top" (some "v") [], "/rpc-reply/top")] from rfl] at hlen
    simp at hlen
  constructor
  · exact (C5_empty_payload [] exReplyEmpty exExpectData rfl rfl).1 rfl
  · exact (C5_empty_payload [] exReplyTopV exExpectData rfl rfl).2 hne

/-! ## Claim C3 -/

/-- Counterexample to claim C3: the collapse of the expectation list only
happens under the explicit with-defaults mode (the code guards both
top-level checks with that capability); with default capabilities the same
marked expectation document against an empty reply returns False, where
the claim promises True. -/
theorem C3_counterexample :
    parse_rpc_expected [] (some exReplyEmpty) (some exExpectMarked) [] = some false := by
  decide

/-- Claim C3 as amended: when the explicit with-defaults mode is active,
an expectation document whose second element (the first child of the outer
payload container) carries the expected="false" marker collapses the whole
expectation list to empty, so the call returns True exactly when the
actual reply has no payload elements. -/
theorem C3_amended (wd : List String) (R E el : XElem) (x : String)
    (hwd : hasStr wd "explicit" = true)
    (hroot : localName R.tag = "rpc-reply")
    (hsecond : (flattenExpect E).get? 1 = some (el, x))
    (hmark : attribGet el.attrib "expected" = some "false") :
    parse_rpc_expected wd (some R) (some E) [] = some (flattenReply R).isEmpty := by
  have hlt : 1 < (flattenExpect E).length := by
    by_contra hcon
    rw [List.get?_eq_none.mpr (by omega)] at hsecond
    exact Option.noConfusion hsecond
  have hkey : attribHasKey el.attrib "expected" = true := by
    unfold attribGet at hmark
    cases hfind : el.attrib.find? (fun p => p.1 = "expected") with
    | none => rw [hfind] at hmark; exact Option.noConfusion hmark
    | some q =>
      have hq := List.find?_some hfind
      have hqm := List.mem_of_find?_eq_some hfind
      exact List.any_eq_true.mpr ⟨q, hqm, hq⟩
  have hne : (flattenExpect E).isEmpty = false := by
    cases hfe : flattenExpect E with
    | nil => rw [hfe] at hlt; simp at hlt
    | cons a l => simp
  have hlt2 : ¬((flattenExpect E).length < 2) := by omega
  have hsec2 : (flattenExpect E)[1]? = some (el, x) := by
    rw [← List.get?_eq_getElem?]
    exact hsecond
  have hpre : preprocess_expected wd (flattenExpect E) = [] := by
    simp [preprocess_expected, hwd, hlt2, hne, hsec2, hkey]
  simp [parse_rpc_expected, process_rpc_reply, hroot, hpre, parse_rpc_core_nil_nil]

/-- Witness for C3 as amended: under explicit mode, the marked expectation
document against an empty reply succeeds. -/
theorem C3_witness :
    parse_rpc_expected ["explicit"] (some exReplyEmpty) (some exExpectMarked) []
      = some true :=
  C3_amended ["explicit"] exReplyEmpty exExpectMarked
    (xleaf "item" none [("expected", "false")]) "/top/item" rfl rfl rfl rfl

/-! ## Claim C2 -/

/-- Counterexample to claim C2: reflexivity fails on a well-formed
rpc-reply whose payload element carries a literal expected="false"
attribute.  The identical expectation document then marks that element as
one that must be absent, the absence check sees it present with an agreeing
value, and the call returns False instead of True. -/
theorem C2_counterexample :
    parse_rpc_expected [] (some exReplyAttr) (some exReplyAttr) [] = some false := by
  decide

theorem hasStr_of_mem (l : List String) (s : String) (h : s ∈ l) :
    hasStr l s = true :=
  List.any_eq_true.mpr ⟨s, h, by simp⟩

/-- process_values of an element against itself: either both sides have no
value, or the match key is set. -/
theorem process_values_self (e : XElem) :
    (process_values (some e) (some e)).noValues = true ∨
    ((process_values (some e) (some e)).noValues = false ∧
     (process_values (some e) (some e)).isMatch = true) := by
  cases h : textValue e with
  | none => left; simp [process_values, h]
  | some v => right; simp [process_values, h]

theorem findReply_head (e : XElem) (x : String) (rest : List (XElem × String)) :
    findReply e.tag x ((e, x) :: rest) = some (0, e, x) := by
  simp [findReply]

/-- The verify_reply loop on identical expected and response lists with no
opfields always succeeds and consumes the whole response, whatever
namespace set has accumulated: the head expectation finds the head reply
(same tag and xpath), the namespaces just added cover the reply namespaces,
and the values of an element against itself are either absent on both
sides or matching. -/
theorem verifyAux_self (wd : List String) (L : List (XElem × String)) :
    ∀ (nsSet : List String) (seq : Int),
      verifyAux wd L true nsSet L [] seq = some (true, [], []) := by
  induction L with
  | nil => intro nsSet seq; simp [verifyAux]
  | cons p rest ih =>
    intro nsSet seq
    obtain ⟨e, x⟩ := p
    have hns : (e.nsmap.map (·.2)).all
        (fun ns => ns = NETCONF_NAMESPACE ||
          hasStr (nsSet ++ e.nsmap.map (·.2)) ns) = true := by
      apply List.all_eq_true.mpr
      intro v hv
      have := hasStr_of_mem (nsSet ++ e.nsmap.map (·.2)) v
        (List.mem_append_right _ hv)
      simp [this]
    rcases process_values_self e with hnv | ⟨hnv, hm⟩
    · simp [verifyAux, findReply_head, hns, hnv, ih]
    · simp [verifyAux, findReply_head, hns, hnv, hm, ih]

/-- The absence-scan fold does nothing when no element is marked absent. -/
theorem foldl_scanUnexpected_nil (wd : List String)
    (l : List (XElem × String)) (res : Bool) :
    l.foldl (fun r p => scanUnexpected wd p.1 p.2 [] r) res = res := by
  induction l generalizing res with
  | nil => rfl
  | cons p rest ih => simp [List.foldl_cons, scanUnexpected, ih]

/-- process_expect_reply is the identity pass when no expected element is
marked with the expected="false" attribute. -/
theorem process_expect_reply_unmarked (wd : List String)
    (response expected : List (XElem × String))
    (hnomark : ∀ p ∈ expected, ¬ attribGet p.1.attrib "expected" = some "false") :
    process_expect_reply wd response expected = (true, expected, response) := by
  have hunex : expected.filter
      (fun p => attribGet p.1.attrib "expected" = some "false") = [] :=
    List.filter_eq_nil_iff.mpr (fun p hp => by simpa using hnomark p hp)
  have hexp : expected.filter
      (fun p => ¬ attribGet p.1.attrib "expected" = some "false") = expected :=
    List.filter_eq_self.mpr (fun p hp => by simpa using hnomark p hp)
  simp [process_expect_reply, hunex, hexp, foldl_scanUnexpected_nil]
  exact fun a b hab => hnomark (a, b) hab

/-- Claim C2 as amended: reflexivity of parse_rpc_expected holds, under
default capabilities, for every well-formed rpc-reply tree on which the
two sides agree syntactically: no element carries an expected="false"
attribute (the minus-marker attribute the expectation parser reacts to),
and the reply-side xpath rewrite (global replace of /rpc-reply/data) and
the expectation-side rewrite (strip one leading /rpc-reply/data or /data)
produce the same flattened list, which holds whenever no interior element
chain spells out /rpc-reply/data again. -/
theorem C2_amended (X : XElem)
    (hroot : localName X.tag = "rpc-reply")
    (hsame : flattenReply X = flattenExpect X)
    (hnomark : ∀ p ∈ flattenExpect X,
      ¬ attribGet p.1.attrib "expected" = some "false") :
    parse_rpc_expected [] (some X) (some X) [] = some true := by
  have hpre : preprocess_expected [] (flattenExpect X) = flattenExpect X := by
    simp [preprocess_expected, hasStr]
  have hcore : parse_rpc_core [] (flattenExpect X) (flattenExpect X) [] = some true := by
    cases hL : flattenExpect X with
    | nil => simp [parse_rpc_core_nil_nil]
    | cons a l =>
      rw [← hL]
      have hper := process_expect_reply_unmarked [] (flattenExpect X)
        (flattenExpect X) hnomark
      have hver : verify_reply [] (flattenExpect X) (flattenExpect X) [] =
          some (true, [], []) := verifyAux_self [] (flattenExpect X) [] 0
      have hne : (flattenExpect X).isEmpty = false := by simp [hL]
      simp [parse_rpc_core, hper, hver, hne]
  simp [parse_rpc_expected, process_rpc_reply, hroot, hpre, hsame, hcore]

/-- Witness for C2 as amended at the spec section 8 reply (rpc-reply over
data over sys over name = foo) compared against itself. -/
theorem C2_witness :
    parse_rpc_expected [] (some exReplyFoo) (some exReplyFoo) [] = some true :=
  C2_amended exReplyFoo rfl rfl (by decide)

/-! ## Claim C4 -/

/-- Counterexample to claim C4: verification can raise.  With one opfield
whose xpath matches no reply element and whose id key is missing, the
sequence-number fallback in verify_reply evaluates int(field[...]) and the
KeyError escapes to the caller of parse_rpc_expected (modelled by the none
result) instead of a False return. -/
theorem C4_counterexample :
    parse_rpc_expected [] (some exReplyTopV) (some exReplyTopV) [exFieldNoId]
      = none := by
  decide

/-- The verify_reply opfields scan returns normally whenever every pending
field carries an integer id, and only ever removes fields. -/
theorem scanVR_spec (ln rx v : String) (seq : Int) :
    ∀ (fuel i : Nat) (flds : List OpField),
      (∀ f ∈ flds, f.id.isSome) →
      ∃ ok out, scanVR ln rx v seq fuel i flds = some (ok, out) ∧
        ∀ g ∈ out, g ∈ flds := by
  intro fuel
  induction fuel with
  | zero => intro i flds _; exact ⟨true, flds, rfl, fun g hg => hg⟩
  | succ fuel ih =>
    intro i flds hid
    cases hget : flds[i]? with
    | none => exact ⟨true, flds, by simp [scanVR, hget], fun g hg => hg⟩
    | some field =>
      have hfmem : field ∈ flds := List.get?_mem
        (by rw [List.get?_eq_getElem?]; exact hget)
      by_cases hsel : field.selected = false
      · obtain ⟨ok, out, heq, hsub⟩ := ih (i + 1) (flds.erase field)
          (fun g hg => hid g (List.mem_of_mem_erase hg))
        exact ⟨ok, out, by simp [scanVR, hget, hsel, heq],
          fun g hg => List.mem_of_mem_erase (hsub g hg)⟩
      · by_cases hxp : field.xpath = some rx ∧ field.name = ln
        · exact ⟨check_opfield v field, flds.erase field,
            by simp [scanVR, hget, hsel, hxp],
            fun g hg => List.mem_of_mem_erase hg⟩
        · obtain ⟨fid, hfid⟩ := Option.isSome_iff_exists.mp (hid field hfmem)
          by_cases hseq : seq = fid
          · exact ⟨check_opfield v field, flds.erase field,
              by simp [scanVR, hget, hsel, hxp, hfid, hseq],
              fun g hg => List.mem_of_mem_erase hg⟩
          · obtain ⟨ok, out, heq, hsub⟩ := ih (i + 1) flds hid
            exact ⟨ok, out, by simp [scanVR, hget, hsel, hxp, hfid, hseq, heq],
              hsub⟩

/-- verify_reply returns normally (no exception) whenever every opfield
carries an integer id. -/
theorem verifyAux_isSome (wd : List String) (exp : List (XElem × String)) :
    ∀ (result : Bool) (nsSet : List String) (resp : List (XElem × String))
      (flds : List OpField) (seq : Int),
      (∀ f ∈ flds, f.id.isSome) →
      (verifyAux wd exp result nsSet resp flds seq).isSome = true := by
  induction exp with
  | nil => intro result nsSet resp flds seq _; simp [verifyAux]
  | cons p rest ih =>
    intro result nsSet resp flds seq hid
    obtain ⟨e, x⟩ := p
    cases hf : findReply e.tag x resp with
    | none =>
      simp only [verifyAux, hf]
      exact ih false nsSet resp flds seq hid
    | some q =>
      obtain ⟨i, r, rx⟩ := q
      simp only [verifyAux, hf]
      split
      · exact ih _ _ _ _ _ hid
      · split
        · obtain ⟨ok, out, heq, hsub⟩ :=
            scanVR_spec (localName r.tag) rx
              ((process_values (some r) (some e)).replyVal.getD "") seq
              (flds.length + 1) 0 flds hid
          rw [heq]
          exact ih _ _ _ _ _ (fun g hg => hid g (hsub g hg))
        · exact ih _ _ _ _ _ hid

/-- parse_rpc_core never raises when every opfield has an integer id. -/
theorem parse_rpc_core_isSome (wd : List String)
    (resp expd : List (XElem × String)) (flds : List OpField)
    (hid : ∀ f ∈ flds, f.id.isSome) :
    (parse_rpc_core wd resp expd flds).isSome = true := by
  unfold parse_rpc_core
  split
  · rfl
  · split
    · rfl
    · split
      · rfl
      · dsimp only
        split
        · rw [Option.isSome_map']
          exact verifyAux_isSome wd _ true [] _ flds 0 hid
        · rfl

/-- Claim C4 as amended: the verification entry points return a boolean
(False with a logged diagnostic on every mismatch) rather than raising,
provided every opfield carries an integer id; check_opfield and
process_operational_state are total in any case.  A field whose xpath does
not match the reply element being verified and whose id key is missing (or
not an integer) makes verify_reply raise through the int(field[...])
fallback, and the exception escapes parse_rpc_expected to the caller. -/
theorem C4_amended (wd : List String) (respX expectX : Option XElem)
    (flds : List OpField) (hid : ∀ f ∈ flds, f.id.isSome) :
    (parse_rpc_expected wd respX expectX flds).isSome = true := by
  unfold parse_rpc_expected
  split
  · rfl
  · split
    · rfl
    · split
      · rfl
      · split
        · rfl
        · exact parse_rpc_core_isSome wd _ _ flds hid

/-- Witness for C4 as amended: with the same reply and expectation but an
id-carrying opfield, the call returns normally. -/
theorem C4_witness :
    (parse_rpc_expected [] (some exReplyTopV) (some exReplyTopV)
      [⟨"x", some "/zzz", "v", "==", some 5, true⟩]).isSome = true :=
  C4_amended [] (some exReplyTopV) (some exReplyTopV)
    [⟨"x", some "/zzz", "v", "==", some 5, true⟩] (by decide)

/-! ## Claim C10 -/

/-- The process_operational_state opfields scan only ever removes fields:
its output list is a sublist of its input list. -/
theorem scanPO_sublist (ln rx v : String) :
    ∀ (fuel i : Nat) (flds : List OpField),
      ((scanPO ln rx v fuel i flds).2).Sublist flds := by
  intro fuel
  induction fuel with
  | zero => intro i flds; exact List.Sublist.refl flds
  | succ fuel ih =>
    intro i flds
    cases hget : flds.get? i with
    | none =>
      simp only [scanPO]
      rw [hget]
    | some field =>
      simp only [scanPO]
      rw [hget]
      dsimp only
      by_cases hsel : field.selected = false
      · rw [if_pos hsel]
        exact (ih (i + 1) (flds.erase field)).trans (List.erase_sublist field flds)
      · rw [if_neg hsel]
        by_cases hxp : field.xpath = some rx ∧ ln = field.name
        · rw [if_pos hxp]
          exact List.erase_sublist field flds
        · rw [if_neg hxp]
          exact ih (i + 1) flds

/-- The fold of poStep over the response only ever removes pending
opfields. -/
theorem poFold_sublist (resp : List (XElem × String)) :
    ∀ (st : Bool × List OpField),
      ((resp.foldl poStep st).2).Sublist st.2 := by
  induction resp with
  | nil => intro st; exact List.Sublist.refl st.2
  | cons p rest ih =>
    intro st
    rw [List.foldl_cons]
    refine (ih (poStep st p)).trans ?_
    simp only [poStep]
    exact scanPO_sublist (localName p.1.tag) p.2
      ((process_values (some p.1) none).replyVal.getD "empty") (st.2.length + 1) 0 st.2

/-- A singleton opfields scan removes a field that is deselected or that
matches the reply element by xpath and local name (verify_reply side). -/
theorem scanVR_single_removed (ln x w : String) (f : OpField)
    (hf : f.selected = false ∨ (f.xpath = some x ∧ f.name = ln)) :
    ∃ ok, scanVR ln x w 0 2 0 [f] = some (ok, []) := by
  by_cases hsel : f.selected = false
  · exact ⟨true, by simp [scanVR, hsel, List.erase_cons_head]⟩
  · have hxp := hf.resolve_left hsel
    exact ⟨check_opfield w f, by simp [scanVR, hsel, hxp.1, hxp.2, List.erase_cons_head]⟩

/-- The same for the process_operational_state side. -/
theorem scanPO_single_removed (ln x w : String) (f : OpField)
    (hf : f.selected = false ∨ (f.xpath = some x ∧ f.name = ln)) :
    ∃ ok, scanPO ln x w 2 0 [f] = (ok, []) := by
  by_cases hsel : f.selected = false
  · exact ⟨true, by simp [scanPO, hsel, List.erase_cons_head]⟩
  · have hxp := hf.resolve_left hsel
    exact ⟨check_opfield w f, by simp [scanPO, hsel, hxp.1, hxp.2, List.erase_cons_head]⟩

/-- Claim C10: the opfields list passed by the caller is consumed in place,
modelled here by the returned post-call list.  In general the walk only
removes entries (the result list is a sublist of the input), and a field
that is deselected or that matches the reply element by xpath and local
name is removed by both process_operational_state and verify_reply: both
post-call lists are empty in the singleton scenario. -/
theorem C10_opfields_mutation (wd : List String)
    (resp : List (XElem × String)) (flds : List OpField)
    (r : XElem) (x : String) (f : OpField)
    (hval : (textValue r).isSome = true)
    (hf : f.selected = false ∨ (f.xpath = some x ∧ f.name = localName r.tag)) :
    ((process_operational_state resp flds).2).Sublist flds ∧
    (process_operational_state [(r, x)] [f]).2 = [] ∧
    (∃ res, verify_reply wd [(r, x)] [(r, x)] [f] = some res ∧ res.2.2 = []) := by
  obtain ⟨v, hv⟩ := Option.isSome_iff_exists.mp hval
  refine ⟨?_, ?_, ?_⟩
  · unfold process_operational_state
    split
    · exact List.nil_sublist flds
    · dsimp only
      split
      · exact poFold_sublist resp (true, flds)
      · exact poFold_sublist resp (true, flds)
  · obtain ⟨ok, hscan⟩ := scanPO_single_removed (localName r.tag) x
      ((process_values (some r) none).replyVal.getD "empty") f hf
    simp [process_operational_state, poStep, hscan]
  · have hnv : (process_values (some r) (some r)).noValues = false := by
      simp [process_values, hv]
    have hrv : (process_values (some r) (some r)).replyVal = some v := by
      simp [process_values, hv]
    obtain ⟨ok, hscan⟩ := scanVR_single_removed (localName r.tag) x v f hf
    simp [verify_reply, verifyAux, findReply_head, hnv, hrv, hscan]

/-! ## Claim C8 -/

/-- Counterexample to claim C8: normalize is not idempotent on its own
output.  The line consisting of a space followed by an exclamation mark
and text survives the first pass (the comment check looks at the raw line,
whose first character is a space, and the bang alone is not its first
token), but the pass strips it, so the second pass sees a line starting
with the exclamation mark and drops it. -/
theorem C8_counterexample :
    CiscoConfig.normalize (joinLines (CiscoConfig.normalize " !x")) ≠
      CiscoConfig.normalize " !x" := by
  decide

theorem str_data_ne_nil (s : String) (h : s ≠ "") : s.data ≠ [] := by
  intro hd
  apply h
  cases s
  simp_all

/-- Splitting after appending one newline-free line and a newline peels off
exactly that line. -/
theorem splitLinesList_append (l t : List Char) (h : '\n' ∉ l) :
    splitLinesList (l ++ '\n' :: t) = l :: splitLinesList t := by
  induction l with
  | nil => simp [splitLinesList]
  | cons c cs ih =>
    have hc : ¬(c = '\n') := fun hh => h (hh ▸ List.mem_cons_self c cs)
    have hcs : '\n' ∉ cs := fun hh => h (List.mem_cons_of_mem c hh)
    simp only [List.cons_append, splitLinesList]
    rw [if_neg hc, show cs.append ('\n' :: t) = cs ++ '\n' :: t from rfl, ih hcs]

/-- A nonempty newline-free text splits into itself as a single line. -/
theorem splitLinesList_single (l : List Char) (h : '\n' ∉ l) (hne : l ≠ []) :
    splitLinesList l = [l] := by
  induction l with
  | nil => exact absurd rfl hne
  | cons c cs ih =>
    have hc : ¬(c = '\n') := fun hh => h (hh ▸ List.mem_cons_self c cs)
    have hcs : '\n' ∉ cs := fun hh => h (List.mem_cons_of_mem c hh)
    by_cases hcs2 : cs = []
    · subst hcs2
      simp [splitLinesList, hc]
    · simp only [splitLinesList]
      rw [if_neg hc, ih hcs hcs2]

/-- Splitting inverts joining for nonempty newline-free lines. -/
theorem splitJoinList (lines : List (List Char))
    (h : ∀ l ∈ lines, '\n' ∉ l ∧ l ≠ []) :
    splitLinesList (joinLinesList lines) = lines := by
  induction lines with
  | nil => rfl
  | cons l rest ih =>
    cases rest with
    | nil =>
      exact splitLinesList_single l (h l (by simp)).1 (h l (by simp)).2
    | cons m rest2 =>
      rw [show joinLinesList (l :: m :: rest2) =
        l ++ '\n' :: joinLinesList (m :: rest2) from rfl]
      rw [splitLinesList_append _ _ (h l (by simp)).1]
      rw [ih (fun y hy => h y (List.mem_cons_of_mem l hy))]

/-- String level roundtrip: splitting the joined normalized lines gives
them back, provided each is nonempty and newline free. -/
theorem splitLines_joinLines (ls : List String)
    (h : ∀ l ∈ ls, ('\n' ∉ l.data) ∧ l ≠ "") :
    splitLines (joinLines ls) = ls := by
  unfold splitLines joinLines
  rw [splitJoinList (ls.map String.data) (by
    intro l hl
    obtain ⟨s, hs, rfl⟩ := List.mem_map.mp hl
    exact ⟨(h s hs).1, str_data_ne_nil s (h s hs).2⟩)]
  rw [List.map_map]
  have hid : ((fun d : List Char => (⟨d⟩ : String)) ∘ String.data) = id := by
    funext s
    rfl
  rw [hid, List.map_id]

/-- filterMap is the identity when every element maps to itself. -/
theorem filterMap_self_of (f : String → Option String) :
    ∀ (ls : List String), (∀ l ∈ ls, f l = some l) → ls.filterMap f = ls := by
  intro ls
  induction ls with
  | nil => intro _; rfl
  | cons a rest ih =>
    intro h
    rw [List.filterMap_cons, h a (by simp)]
    rw [ih (fun y hy => h y (by simp [hy]))]

/-- A line that triggers none of the normalize filters and rewrites passes
through processLine unchanged. -/
theorem processLine_fixed (l : String)
    (h1 : l ≠ "") (h3 : pyStrip l = l)
    (h4 : containsSub l "--More--" = false)
    (h5 : pyStartsWith l "#" = false)
    (h6 : pyStartsWith l "!" = false)
    (h7 : pyStartsWith l "Current configuration" = false)
    (h8 : pyEndsWith (pyRstrip l) "#" = false)
    (h9 : hasStr ciscoSkip (firstToken l) = false)
    (h10 : check_timestamps l = false)
    (h11 : check_special_handles l = some l) :
    processLine l = some l := by
  simp [processLine, h3, h1, h4, h5, h6, h7, h8, h9, h10, h11]

/-- Claim C8 as amended: normalize is idempotent on its own output for
configurations none of whose normalized lines re-trigger a filter or
rewrite on the second pass: every output line is nonempty, newline free,
already stripped, contains no More marker, does not begin with a hash, a
bang or Current configuration, does not end in a hash, has a first token
outside the skip list, is not a timestamp line, and is a fixed point of
the special handles (interface, username, exit). -/
theorem C8_amended (cfg : String)
    (H : ∀ l ∈ CiscoConfig.normalize cfg,
      l ≠ "" ∧ ('\n' ∉ l.data) ∧ pyStrip l = l ∧
      containsSub l "--More--" = false ∧ pyStartsWith l "#" = false ∧
      pyStartsWith l "!" = false ∧
      pyStartsWith l "Current configuration" = false ∧
      pyEndsWith (pyRstrip l) "#" = false ∧
      hasStr ciscoSkip (firstToken l) = false ∧
      check_timestamps l = false ∧ check_special_handles l = some l) :
    CiscoConfig.normalize (joinLines (CiscoConfig.normalize cfg)) =
      CiscoConfig.normalize cfg := by
  have hsplit : splitLines (joinLines (CiscoConfig.normalize cfg)) =
      CiscoConfig.normalize cfg :=
    splitLines_joinLines _ (fun l hl => ⟨(H l hl).2.1, (H l hl).1⟩)
  conv_lhs => rw [CiscoConfig.normalize, hsplit]
  apply filterMap_self_of
  intro l hl
  obtain ⟨h1, _, h3, h4, h5, h6, h7, h8, h9, h10, h11⟩ := H l hl
  exact processLine_fixed l h1 h3 h4 h5 h6 h7 h8 h9 h10 h11

/-- Witness for C8 as amended at a concrete two-line configuration. -/
theorem C8_witness :
    CiscoConfig.normalize
      (joinLines (CiscoConfig.normalize "router bgp 1\nneighbor 1.2.3.4")) =
      CiscoConfig.normalize "router bgp 1\nneighbor 1.2.3.4" :=
  C8_amended "router bgp 1\nneighbor 1.2.3.4" (by decide)

/-- Witness for C10 at a concrete matched field. -/
theorem C10_witness :
    (process_operational_state [(xleaf "state" (some "up") [], "/sys/state")]
      [⟨"state", some "/sys/state", "up", "==", some 0, true⟩]).2 = [] :=
  (C10_opfields_mutation [] [] [] (xleaf "state" (some "up") []) "/sys/state"
    ⟨"state", some "/sys/state", "up", "==", some 0, true⟩ (by decide)
    (Or.inr ⟨rfl, rfl⟩)).2.1
